import Mathlib

/-!
Verification development for the bounded traversal and rendering engine of
`src/gitingest/query_ingestion.py` (gitingest_self).

The Python functions are shallowly embedded as pure Lean functions:
* filesystem paths are lists of components (`GPath`);
* the filesystem is a finite map from canonical (fully symlink-resolved)
  paths to entries (files, directories, symlinks); symlink targets are
  stored fully resolved, which matches `Path.resolve` semantics for the
  filesystems exercised by the claims (no symlink chains);
* the mutable `result` / `stats` / `seen_paths` dictionaries of the Python
  code become explicit state that is threaded through the recursion;
* Python exceptions (`MaxFileSizeReachedError`, `MaxFilesReachedError`,
  `AlreadyVisitedError`) become an `Option Exc` component of each step's
  result; a raised exception carries along the state *as already mutated*,
  exactly as the in-place dictionary mutations survive a Python `raise`;
* file reading and text decoding are I/O performed by the OS / external
  decoders; a file entry therefore carries the byte sample that
  `open('rb').read(1024)` would produce and the string that
  `_read_file_content` would produce.

Recursion in `_scan_directory` is bounded in the source by the depth guard
(`depth > MAX_DIRECTORY_DEPTH` returns `None` and every recursive call uses
`depth + 1`).  The embedding makes this a structural recursion on a fuel
argument; the top-level call supplies fuel `MAX_DIRECTORY_DEPTH + 2` so that
fuel runs out exactly when `depth = MAX_DIRECTORY_DEPTH + 2`, a point where
the source's own depth guard would already have returned `None`: the fuel-0
branch returns `none`, which is precisely the source's behaviour there.
-/

namespace Gitingest

/-- A filesystem path, as its list of components (absolute, no leading slash
component). `str(path)` of the Python code corresponds to joining with "/". -/
abbrev GPath := List String

/-- Limits from the module header of query_ingestion.py. -/
def MAX_FILE_SIZE : Nat := 10 * 1024 * 1024

def MAX_DIRECTORY_DEPTH : Nat := 20

def MAX_FILES : Nat := 10000

def MAX_TOTAL_SIZE_BYTES : Nat := 500 * 1024 * 1024

/-- Data of a regular file: its byte size, the byte sample that
`open('rb').read(1024)` yields (we store the whole file's bytes; the
classifier takes the first 1024), and the text that `_read_file_content`
yields (UTF-8 decoding with errors ignored, or the external notebook
decoder; both are external I/O collaborators, so their output is data of
the model). -/
structure FileData where
  size : Nat
  sample : List Nat
  text : String
  deriving Repr, DecidableEq

/-- A filesystem entry at a canonical path. -/
inductive Entry where
  | file (d : FileData)
  | dir (names : List String)
  | symlink (target : GPath)
  deriving Repr, DecidableEq

/-- The filesystem: canonical path to entry. -/
abbrev FS := GPath → Option Entry

/-- One step of `Path.resolve`: resolving component `n` under resolved
directory `c`.  A symlink entry is replaced by its (stored fully resolved)
target. -/
def resolveStep (fs : FS) (c : GPath) (n : String) : GPath :=
  match fs (c ++ [n]) with
  | some (Entry.symlink t) => t
  | _ => c ++ [n]

/-- `Path.resolve()`: canonicalize a path component by component. -/
def resolvePath (fs : FS) (p : GPath) : GPath :=
  p.foldl (resolveStep fs) []

/-- The canonical location of the entry a path denotes without following a
final symlink: resolve all but the last component.  Used for
`Path.is_symlink`, which does not follow the link itself. -/
def canonKey (fs : FS) (p : GPath) : GPath :=
  match p.getLast? with
  | none => []
  | some n => resolvePath fs p.dropLast ++ [n]

/-- `Path.is_symlink()`. -/
def isSymlinkPath (fs : FS) (p : GPath) : Bool :=
  match fs (canonKey fs p) with
  | some (Entry.symlink _) => true
  | _ => false

/-- `Path.is_file()` (follows symlinks). -/
def isFilePath (fs : FS) (p : GPath) : Bool :=
  match fs (resolvePath fs p) with
  | some (Entry.file _) => true
  | _ => false

/-- `Path.is_dir()` (follows symlinks). -/
def isDirPath (fs : FS) (p : GPath) : Bool :=
  match fs (resolvePath fs p) with
  | some (Entry.dir _) => true
  | _ => false

/-- The `FileData` a path resolves to; only consulted after `isFilePath`
has been checked (the Python code calls `stat`/`open` only then). -/
def fileDataAt (fs : FS) (p : GPath) : FileData :=
  match fs (resolvePath fs p) with
  | some (Entry.file d) => d
  | _ => ⟨0, [], ""⟩

/-- `path.name`: the last component (empty for the root). -/
def pathName (p : GPath) : String :=
  (p.getLast?).getD ""

/-- `path.relative_to(base)`: the component suffix, if `base` is a prefix. -/
def relTo (p base : GPath) : Option (List String) :=
  if base.isPrefixOf p then some (p.drop base.length) else none

/-- `str(rel_path)` for a relative path: "." when empty, else the
components joined with "/". -/
def relStr (l : List String) : String :=
  if l.isEmpty then "." else String.intercalate "/" l

/-- A `*` in a glob consumes any prefix: try the rest of the pattern
(`globM`) on every suffix of the string. -/
def globStar (globM : List Char → Bool) : List Char → Bool
  | [] => globM []
  | c :: cs => globM (c :: cs) || globStar globM cs

/-- `fnmatch.fnmatch` for the glob fragment actually used by the queries:
`*` (matches any run of characters, including separators), `?` (any single
character) and literal characters.  Character classes are not modelled; the
patterns of every claim are class-free. -/
def globMatch : List Char → List Char → Bool
  | [], s => s.isEmpty
  | '*' :: ps, s => globStar (globMatch ps) s
  | '?' :: ps, s =>
      match s with
      | [] => false
      | _ :: cs => globMatch ps cs
  | p :: ps, s =>
      match s with
      | [] => false
      | c :: cs => p == c && globMatch ps cs

/-- `fnmatch(rel_str, pattern)`. -/
def fnmatchStr (s pat : String) : Bool :=
  globMatch pat.toList s.toList

/-- `_should_include(path, base_path, include_patterns)`. -/
def should_include (p base : GPath) (include_patterns : List String) : Bool :=
  match relTo p base with
  | none => false
  | some rel => include_patterns.any (fun pat => fnmatchStr (relStr rel) pat)

/-- `_should_exclude(path, base_path, ignore_patterns)`.  An empty pattern
string is skipped (`if pattern and fnmatch(...)`). -/
def should_exclude (p base : GPath) (ignore_patterns : List String) : Bool :=
  match relTo p base with
  | none => true
  | some rel => ignore_patterns.any (fun pat => pat ≠ "" && fnmatchStr (relStr rel) pat)

/-- `_is_safe_symlink(symlink_path, base_path)`: the fully resolved target
must equal the resolved base or lie below it (`base_resolved in
target_path.parents or target_path == base_resolved`), i.e. the resolved
base is a component prefix of the resolved target. -/
def is_safe_symlink (fs : FS) (symlink_path base_path : GPath) : Bool :=
  (resolvePath fs base_path).isPrefixOf (resolvePath fs symlink_path)

/-- The delete table of `_is_text_file`:
`bytes([7, 8, 9, 10, 12, 13, 27] + list(range(0x20, 0x100)))`. -/
def textDeleteSet (b : Nat) : Bool :=
  [7, 8, 9, 10, 12, 13, 27].contains b || (0x20 ≤ b && b < 0x100)

/-- `_is_text_file`: read the first 1024 bytes; `chunk.translate(None,
table)` deletes every byte of the table, and the file is text iff nothing
is left. -/
def is_text_file (d : FileData) : Bool :=
  ((d.sample.take 1024).filter (fun b => !(textDeleteSet b))).isEmpty

/-- The sentinel stored as the content of non-text files. -/
def nonTextSentinel : String := "[Non-text file]"

/-- `_read_file_content`: delegates to the notebook decoder for `.ipynb`
and otherwise decodes UTF-8 ignoring errors (returning an error string on
OSError); all of that is external I/O, whose outcome the model stores in
the file's `text` field. -/
def read_file_content (d : FileData) : String := d.text

/-- The node dictionaries built by the walk: either a file node (`name`,
`type: file`, `size`, `content`, `path`) or a directory node (`name`,
`type: directory`, `size`, `children`, `file_count`, `dir_count`, `path`,
`ignore_content`). -/
inductive Node where
  | file (name : String) (size : Nat) (content : String) (path : GPath)
  | dir (name : String) (size : Nat) (children : List Node)
      (file_count : Nat) (dir_count : Nat) (path : GPath)
      (ignore_content : Bool)
  deriving Repr

/-- `child["type"] == "file"`. -/
def isFileNode : Node → Bool
  | Node.file .. => true
  | Node.dir .. => false

/-- `node["name"]`. -/
def nodeName : Node → String
  | Node.file n .. => n
  | Node.dir n .. => n

/-- `node["size"]`. -/
def nodeSize : Node → Nat
  | Node.file _ s .. => s
  | Node.dir _ s .. => s

/-- `node["file_count"]` of a directory node (0 for a file node, which has
no such key; the walk only reads it from directory nodes). -/
def nodeFileCount : Node → Nat
  | Node.file .. => 0
  | Node.dir _ _ _ fc .. => fc

/-- `node["dir_count"]` of a directory node. -/
def nodeDirCount : Node → Nat
  | Node.file .. => 0
  | Node.dir _ _ _ _ dc .. => dc

/-- `node["children"]` of a directory node. -/
def nodeChildren : Node → List Node
  | Node.file .. => []
  | Node.dir _ _ c .. => c

/-- `f["name"].lower()`; Python's full-Unicode lowercasing agrees with
ASCII lowercasing on every name that can compare equal to "readme.md". -/
def lowerName (n : Node) : String :=
  String.mk ((nodeName n).data.map Char.toLower)

/-- `f["name"].startswith(".")`. -/
def startsDot (n : Node) : Bool :=
  match (nodeName n).data with
  | [] => false
  | c :: _ => c == '.'

/-- Code-point lexicographic comparison of names, exactly Python's string
order (`str` comparison is lexicographic on code points). -/
def charListLe : List Char → List Char → Bool
  | [], _ => true
  | _ :: _, [] => false
  | c :: cs, d :: ds =>
      if c.toNat < d.toNat then true
      else if c.toNat = d.toNat then charListLe cs ds
      else false

/-- The key order of `group.sort(key=lambda x: x["name"])`. -/
def nameLe (a b : Node) : Prop :=
  charListLe (nodeName a).data (nodeName b).data = true

instance : DecidableRel nameLe := fun a b =>
  inferInstanceAs (Decidable (charListLe (nodeName a).data (nodeName b).data = true))

theorem charListLe_total : ∀ x y : List Char, charListLe x y = true ∨ charListLe y x = true := by
  intro x
  induction x with
  | nil => intro y; left; rfl
  | cons c cs ih =>
      intro y
      cases y with
      | nil => right; rfl
      | cons d ds =>
          by_cases h1 : c.toNat < d.toNat
          · left; simp [charListLe, h1]
          · by_cases h2 : c.toNat = d.toNat
            · rcases ih ds with h | h
              · left; simp [charListLe, h1, h2, h]
              · right; simp [charListLe, h2.symm, h]
            · right; simp [charListLe]
              omega

theorem charListLe_trans : ∀ x y z : List Char,
    charListLe x y = true → charListLe y z = true → charListLe x z = true := by
  intro x
  induction x with
  | nil => intro y z _ _; rfl
  | cons c cs ih =>
      intro y z hxy hyz
      cases y with
      | nil => simp [charListLe] at hxy
      | cons d ds =>
          cases z with
          | nil => simp [charListLe] at hyz
          | cons e es =>
              simp only [charListLe] at hxy hyz ⊢
              split at hxy
              · rename_i h1
                split at hyz
                · rename_i h2
                  rw [if_pos (by omega)]
                · split at hyz
                  · rename_i h2 h3
                    rw [if_pos (by omega)]
                  · exact absurd hyz (by simp)
              · split at hxy
                · rename_i h1 h2
                  split at hyz
                  · rename_i h3
                    rw [if_pos (by omega)]
                  · split at hyz
                    · rename_i h3 h4
                      rw [if_neg (by omega), if_pos (by omega)]
                      exact ih ds es hxy hyz
                    · exact absurd hyz (by simp)
                · exact absurd hxy (by simp)

instance : IsTotal Node nameLe :=
  ⟨fun a b => charListLe_total (nodeName a).data (nodeName b).data⟩

instance : IsTrans Node nameLe :=
  ⟨fun _ _ _ h h2 => charListLe_trans _ _ _ h h2⟩

/-- `group.sort(key=lambda x: x["name"])`: Python's list.sort is the stable
sort by the name key; a stable sort's output is unique, so insertion sort
realizes it. -/
def sortByName (l : List Node) : List Node :=
  List.insertionSort nameLe l

/-- `_sort_children`. -/
def sort_children (children : List Node) : List Node :=
  let files := children.filter (fun c => isFileNode c)
  let directories := children.filter (fun c => !isFileNode c)
  let readme_files := files.filter (fun f => lowerName f == "readme.md")
  let other_files := files.filter (fun f => !(lowerName f == "readme.md"))
  let regular_files := other_files.filter (fun f => !startsDot f)
  let hidden_files := other_files.filter (fun f => startsDot f)
  let regular_dirs := directories.filter (fun d => !startsDot d)
  let hidden_dirs := directories.filter (fun d => startsDot d)
  readme_files ++ sortByName regular_files ++ sortByName hidden_files ++
    sortByName regular_dirs ++ sortByName hidden_dirs

/-- The query dictionary fields the walk and renderers read.
`subpath` is kept as its component list (the string "/" has no components);
`user_name`/`repo_name`/`commit`/`branch` are `none` when the key is absent
or its value falsy. -/
structure Query where
  local_path : GPath
  subpath : List String
  ignore_patterns : List String
  include_patterns : List String
  max_file_size : Nat
  slug : String
  user_name : Option String := none
  repo_name : Option String := none
  commit : Option String := none
  branch : Option String := none
  deriving Repr

/-- `stats` dictionary. -/
structure Stats where
  total_files : Nat
  total_size : Nat
  deriving Repr, DecidableEq

/-- The `result` dictionary of `_scan_directory` while it is being built. -/
structure DirResult where
  name : String
  size : Nat
  children : List Node
  file_count : Nat
  dir_count : Nat
  path : GPath
  ignore_content : Bool
  deriving Repr

/-- The fresh `result` dictionary of `_scan_directory`. -/
def initResult (p : GPath) : DirResult :=
  { name := pathName p, size := 0, children := [], file_count := 0,
    dir_count := 0, path := p, ignore_content := false }

/-- The directory node a finished `result` dictionary is. -/
def DirResult.toNode (r : DirResult) : Node :=
  Node.dir r.name r.size r.children r.file_count r.dir_count r.path r.ignore_content

/-- The exceptions of gitingest.exceptions raised by the walk. -/
inductive Exc where
  | maxFileSize
  | maxFiles
  | alreadyVisited
  deriving Repr, DecidableEq

/-- A symlinked directory subtree gets `subdir["name"]`/`subdir["path"]`
rewritten to the symlink's own name and location. -/
def renameNode : Node → String → GPath → Node
  | Node.file _ s c _, nm, p => Node.file nm s c p
  | Node.dir _ s c fc dc _ ic, nm, p => Node.dir nm s c fc dc p ic

/-- The type of the recursive `_scan_directory` call as seen by the item
processors: path, depth, seen_paths, stats in; node option and the mutated
seen_paths and stats out. -/
abbrev ScanFn := GPath → Nat → List GPath → Stats → Option Node × List GPath × Stats

/-- `_process_file(item, result, stats)`.  The size ceiling is checked
before the counters are committed; the file-count ceiling is checked after
`total_files` has been incremented, and the raise happens before the child
node is appended. `d` is the data of the file `item.stat()`/`open` reach
(following a final symlink, as the OS calls do). -/
def process_file (item : GPath) (d : FileData) (r : DirResult) (st : Stats) :
    DirResult × Stats × Option Exc :=
  let file_size := d.size
  if st.total_size + file_size > MAX_TOTAL_SIZE_BYTES then
    (r, st, some Exc.maxFileSize)
  else
    let st : Stats := { total_files := st.total_files + 1,
                        total_size := st.total_size + file_size }
    if st.total_files > MAX_FILES then
      (r, st, some Exc.maxFiles)
    else
      let content := if is_text_file d then read_file_content d else nonTextSentinel
      let child := Node.file (pathName item) file_size content item
      ({ r with children := r.children ++ [child], size := r.size + file_size,
                file_count := r.file_count + 1 },
       st, none)

/-- `_process_symlink(item, query, result, seen_paths, stats, depth,
base_path, include_patterns)`. -/
def process_symlink (fs : FS) (scan : ScanFn) (item : GPath) (depth : Nat)
    (base_path : GPath) (include_patterns : List String)
    (r : DirResult) (st : Stats) (sn : List GPath) :
    DirResult × Stats × List GPath × Option Exc :=
  if !is_safe_symlink fs item base_path then
    (r, st, sn, some Exc.alreadyVisited)
  else
    let real := resolvePath fs item
    if real ∈ sn then
      (r, st, sn, some Exc.alreadyVisited)
    else
      match fs real with
      | some (Entry.file d) =>
          if st.total_size + d.size > MAX_TOTAL_SIZE_BYTES then
            (r, st, sn, some Exc.maxFileSize)
          else
            let st : Stats := { total_files := st.total_files + 1,
                                total_size := st.total_size + d.size }
            if st.total_files > MAX_FILES then
              (r, st, sn, some Exc.maxFiles)
            else
              let content := if is_text_file d then read_file_content d else nonTextSentinel
              let child := Node.file (pathName item) d.size content item
              ({ r with children := r.children ++ [child], size := r.size + d.size,
                        file_count := r.file_count + 1 },
               st, sn, none)
      | some (Entry.dir _) =>
          let (sub, sn, st) := scan real (depth + 1) sn st
          match sub with
          | some m =>
              if include_patterns.isEmpty || nodeFileCount m > 0 then
                let m := renameNode m (pathName item) item
                ({ r with children := r.children ++ [m], size := r.size + nodeSize m,
                          file_count := r.file_count + nodeFileCount m,
                          dir_count := r.dir_count + 1 + nodeDirCount m },
                 st, sn, none)
              else (r, st, sn, none)
          | none => (r, st, sn, none)
      | _ => (r, st, sn, none)

/-- The `except (MaxFileSizeReachedError, AlreadyVisitedError)` clause of
`_process_item`: those two are printed and swallowed; `MaxFilesReachedError`
propagates to the caller. -/
def catchExc : Option Exc → Option Exc
  | some Exc.maxFiles => some Exc.maxFiles
  | _ => none

/-- `_process_item(item, query, result, seen_paths, stats, depth,
ignore_patterns, base_path, include_patterns)`.  Note that the source has
`if item.is_symlink(): ...` followed by `if item.is_file(): ...` (not
`elif`), so a symlink whose `_process_symlink` returned normally falls
through to `_process_file` as well. -/
def process_item (fs : FS) (q : Query) (scan : ScanFn) (item : GPath) (depth : Nat)
    (r : DirResult) (st : Stats) (sn : List GPath) :
    DirResult × Stats × List GPath × Option Exc :=
  let base_path := q.local_path
  let include_patterns := q.include_patterns
  if should_exclude item base_path q.ignore_patterns then
    (r, st, sn, none)
  else if isFilePath fs item && !include_patterns.isEmpty &&
      !should_include item base_path include_patterns then
    ({ r with ignore_content := true }, st, sn, none)
  else
    let s1 :=
      if isSymlinkPath fs item then
        process_symlink fs scan item depth base_path include_patterns r st sn
      else (r, st, sn, none)
    let s2 :=
      match s1 with
      | (r1, st1, sn1, some e) => (r1, st1, sn1, some e)
      | (r1, st1, sn1, none) =>
          if isFilePath fs item then
            let (r2, st2, e2) := process_file item (fileDataAt fs item) r1 st1
            (r2, st2, sn1, e2)
          else if isDirPath fs item then
            let (sub, sn2, st2) := scan item (depth + 1) sn1 st1
            match sub with
            | some m =>
                if include_patterns.isEmpty || nodeFileCount m > 0 then
                  ({ r1 with children := r1.children ++ [m],
                             size := r1.size + nodeSize m,
                             file_count := r1.file_count + nodeFileCount m,
                             dir_count := r1.dir_count + 1 + nodeDirCount m },
                   st2, sn2, none)
                else (r1, st2, sn2, none)
            | none => (r1, st2, sn2, none)
          else (r1, st1, sn1, none)
    (s2.1, s2.2.1, s2.2.2.1, catchExc s2.2.2.2)

/-- The names `path.iterdir()` yields: the child-name list of the directory
entry.  (`iterdir` on a non-directory raises `NotADirectoryError`, which no
claim exercises; every claim scans a directory.) -/
def dirNames : Option Entry → List String
  | some (Entry.dir names) => names
  | _ => []

/-- The `for item in path.iterdir(): _process_item(...)` loop, wrapped in
`try ... except MaxFilesReachedError / PermissionError`: a propagated
exception ends the iteration, keeping the state mutated so far. -/
def scanFold (fs : FS) (q : Query) (scan : ScanFn) (path : GPath) (depth : Nat) :
    List String → DirResult → Stats → List GPath → DirResult × Stats × List GPath
  | [], r, st, sn => (r, st, sn)
  | n :: ns, r, st, sn =>
      match process_item fs q scan (path ++ [n]) depth r st sn with
      | (r1, st1, sn1, some _) => (r1, st1, sn1)
      | (r1, st1, sn1, none) => scanFold fs q scan path depth ns r1 st1 sn1

/-- `_scan_directory(path, query, seen_paths, depth, stats)`, with the
recursion made structural on a fuel argument.  The fuel-0 branch returns
`none`; the top-level call (`scanRoot`) supplies fuel
`MAX_DIRECTORY_DEPTH + 2`, so fuel is 0 only when `depth` has reached
`MAX_DIRECTORY_DEPTH + 2 > MAX_DIRECTORY_DEPTH`, where the source's depth
guard returns `None` as well. -/
def scan_directory (fs : FS) (q : Query) :
    Nat → GPath → Nat → List GPath → Stats → Option Node × List GPath × Stats
  | 0, _, _, sn, st => (none, sn, st)
  | fuel + 1, path, depth, sn, st =>
      if depth > MAX_DIRECTORY_DEPTH then (none, sn, st)
      else if st.total_files ≥ MAX_FILES then (none, sn, st)
      else if st.total_size ≥ MAX_TOTAL_SIZE_BYTES then (none, sn, st)
      else
        let real := resolvePath fs path
        if real ∈ sn then (none, sn, st)
        else
          let sn := real :: sn
          let (r, st, sn) :=
            scanFold fs q (fun p d s t => scan_directory fs q fuel p d s t)
              path depth (dirNames (fs real)) (initResult path) st sn
          (some (DirResult.toNode { r with children := sort_children r.children }),
           sn, st)

/-- `_scan_directory(path=path, query=query)` with the default fresh
`seen_paths`, `depth=0` and fresh `stats`, as `_ingest_directory` calls it. -/
def scanRoot (fs : FS) (q : Query) (path : GPath) : Option Node × List GPath × Stats :=
  scan_directory fs q (MAX_DIRECTORY_DEPTH + 2) path 0 [] ⟨0, 0⟩

/-- The scan root `run_ingest_query` hands to the directory walk:
`query["local_path"] / query["subpath"].lstrip("/")`. -/
def runIngestRootPath (q : Query) : GPath :=
  q.local_path ++ q.subpath

mutual

/-- The number of file nodes a tree actually contains (counting every
`Node.file` in the subtree). -/
def countFiles : Node → Nat
  | Node.file .. => 1
  | Node.dir _ _ children _ _ _ _ => countFilesList children

/-- Total `countFiles` over a list of nodes. -/
def countFilesList : List Node → Nat
  | [] => 0
  | c :: cs => countFiles c + countFilesList cs

end

/-- An element of the `files` list built by `_extract_files_content`:
the root-relative path string's components, the content (`none` when the
file exceeds `max_file_size`), and the size. -/
structure FileInfo where
  path : List String
  content : Option String
  size : Nat
  deriving Repr, DecidableEq

mutual

/-- `_extract_files_content(query, node, max_file_size, files)`: pre-order
collection of the non-binary file nodes, appending to the shared `files`
list.  (`Path(node["path"]).relative_to(query["local_path"])`: every node
path produced by a scan extends `local_path`, so the suffix is taken;
Python would raise `ValueError` otherwise, which no scan output reaches.) -/
def extract_files_content (q : Query) (max_file_size : Nat) :
    Node → List FileInfo → List FileInfo
  | Node.file _ size content path, files =>
      if content ≠ nonTextSentinel then
        let c := if size > max_file_size then none else some content
        files ++ [⟨(relTo path q.local_path).getD [], c, size⟩]
      else files
  | Node.dir _ _ children _ _ _ _, files => extractChildren q max_file_size children files

def extractChildren (q : Query) (max_file_size : Nat) :
    List Node → List FileInfo → List FileInfo
  | [], files => files
  | c :: cs, files =>
      extractChildren q max_file_size cs (extract_files_content q max_file_size c files)

end

/-- `separator = "=" * 48 + "\n"`. -/
def separator : String := String.mk (List.replicate 48 '=') ++ "\n"

/-- `_create_file_content_string(files)`.  `if not file["content"]:
continue` skips a `None` content and also an empty content string (both are
falsy in Python). -/
def create_file_content_string (files : List FileInfo) : String :=
  files.foldl
    (fun output f =>
      match f.content with
      | none => output
      | some c =>
          if c = "" then output
          else
            output ++ separator ++ "File: " ++ relStr f.path ++ "\n" ++ separator ++
              c ++ "\n\n")
    ""

/-- `_create_summary_string(query, nodes)`. -/
def create_summary_string (q : Query) (nodes : Node) : String :=
  let s :=
    match q.user_name, q.repo_name with
    | some u, some rn => "Repository: " ++ u ++ "/" ++ rn ++ "\n"
    | _, _ => "Repository: " ++ q.slug ++ "\n"
  let s := s ++ "Files analyzed: " ++ toString (nodeFileCount nodes) ++ "\n"
  let s :=
    if q.subpath ≠ [] then
      s ++ "Subpath: /" ++ String.intercalate "/" q.subpath ++ "\n"
    else s
  match q.commit with
  | some c => s ++ "Commit: " ++ c ++ "\n"
  | none =>
      match q.branch with
      | some b => if b ≠ "main" && b ≠ "master" then s ++ "Branch: " ++ b ++ "\n" else s
      | none => s

mutual

/-- `_create_tree_structure(query, node, prefix, is_last)`; an empty node
name is replaced by the query slug before rendering. -/
def create_tree_structure (q : Query) (node : Node) (pfx : String) (is_last : Bool) :
    String :=
  let nm := if nodeName node = "" then q.slug else nodeName node
  let line :=
    if nm ≠ "" then
      pfx ++ (if is_last then "└── " else "├── ") ++ nm ++
        (if isFileNode node then "" else "/") ++ "\n"
    else ""
  match node with
  | Node.file .. => line
  | Node.dir _ _ children _ _ _ _ =>
      let np := if nm ≠ "" then pfx ++ (if is_last then "    " else "│   ") else pfx
      line ++ treeChildren q np children

def treeChildren (q : Query) (pfx : String) : List Node → String
  | [] => ""
  | [c] => create_tree_structure q c pfx true
  | c :: c2 :: cs => create_tree_structure q c pfx false ++ treeChildren q pfx (c2 :: cs)

end

/-- `_generate_token_string(context_string)`: the token count itself is the
external tiktoken collaborator (`tok`; `none` models its failure, which the
caller tolerates).  The `.1f` float formatting is modelled as truncation of
the tenths digit; no claim evaluates this branch. -/
def generate_token_string (tok : String → Option Nat) (context_string : String) :
    Option String :=
  match tok context_string with
  | none => none
  | some total_tokens =>
      if total_tokens > 1000000 then
        let t := total_tokens * 10 / 1000000
        some (toString (t / 10) ++ "." ++ toString (t % 10) ++ "M")
      else if total_tokens > 1000 then
        let t := total_tokens * 10 / 1000
        some (toString (t / 10) ++ "." ++ toString (t % 10) ++ "k")
      else some (toString total_tokens)

/-- `str(path)` of an absolute path. -/
def pathStr (p : GPath) : String := "/" ++ String.intercalate "/" p

/-- `_ingest_directory(path, query)`: raises `ValueError("No files found
in ...")` when `_scan_directory` returned a falsy value (`None`; the result
dictionary itself is never falsy since it always carries its keys). -/
def ingest_directory (fs : FS) (q : Query) (tok : String → Option Nat) (path : GPath) :
    Except String (String × String × String) :=
  match (scanRoot fs q path).1 with
  | none => Except.error ("No files found in " ++ pathStr path)
  | some nodes =>
      let files := extract_files_content q q.max_file_size nodes []
      let summary := create_summary_string q nodes
      let tree := "Directory structure:\n" ++ create_tree_structure q nodes "" true
      let files_content := create_file_content_string files
      let summary :=
        match generate_token_string tok (tree ++ files_content) with
        | some t => summary ++ "\nEstimated tokens: " ++ t
        | none => summary
      Except.ok (summary, tree, files_content)

/-! ### Auxiliary definitions used by the verification -/

/-- The walk invariant: `StepOk st st' c c'` relates the stats and result
children across one piece of work of the walk.  Both counters only grow,
the byte total never leaves `max st.total_size MAX_TOTAL_SIZE_BYTES` (the
size ceiling is checked before committing), and the file nodes added to
the children obey `st.total_files + new ≤ min st'.total_files
(max st.total_files MAX_FILES)`: every admission was paid for by a counter
increment that kept the counter within the ceiling.  The relation is
reflexive and transitive, so it composes along the walk. -/
structure StepOk (st st' : Stats) (c c' : List Node) : Prop where
  files_mono : st.total_files ≤ st'.total_files
  size_mono : st.total_size ≤ st'.total_size
  size_bound : st'.total_size ≤ max st.total_size MAX_TOTAL_SIZE_BYTES
  count_bound : st.total_files + countFilesList c' ≤
    countFilesList c + min st'.total_files (max st.total_files MAX_FILES)

/-- The induction hypothesis about the recursive `_scan_directory` call
handed to the item processors. -/
structure ScanSpec (scan : ScanFn) : Prop where
  step : ∀ p d sn st, StepOk st (scan p d sn st).2.2 [] []
  breach : ∀ p d sn st, st.total_files ≥ MAX_FILES → scan p d sn st = (none, sn, st)
  count_bound : ∀ p d sn st n, (scan p d sn st).1 = some n →
    st.total_files + countFiles n ≤ min (scan p d sn st).2.2.total_files MAX_FILES

/-- The rank of a child node in the display order the spec describes:
README variants, then regular files, hidden files, regular directories,
hidden directories. -/
def childRank (n : Node) : Nat :=
  if isFileNode n then
    if lowerName n == "readme.md" then 0
    else if startsDot n then 2 else 1
  else if startsDot n then 4 else 3

/-- Modelled from the spec: the byte allow-list the specification gives for
the content classifier — tab, newline, carriage return, form feed, escape,
and the printable range. -/
def isTextAllowedSpec (b : Nat) : Bool :=
  [9, 10, 13, 12, 27].contains b || (0x20 ≤ b && b ≤ 0x7E)

/-- A file record in spec-side pre-order statements: path, size, content. -/
structure FlatFile where
  path : GPath
  size : Nat
  content : String
  deriving Repr, DecidableEq

mutual

/-- Spec-side pre-order listing of all the file nodes of a tree. -/
def preorderFiles : Node → List FlatFile
  | Node.file _ size content path => [⟨path, size, content⟩]
  | Node.dir _ _ children _ _ _ _ => preorderFilesList children

/-- Pre-order file listing of a list of nodes. -/
def preorderFilesList : List Node → List FlatFile
  | [] => []
  | c :: cs => preorderFiles c ++ preorderFilesList cs

end

/-- The content block the renderer emits for one file. -/
def blockOf (q : Query) (f : FlatFile) : String :=
  separator ++ "File: " ++ relStr ((relTo f.path q.local_path).getD []) ++ "\n" ++
    separator ++ f.content ++ "\n\n"

/-- A file whose block the rendered content string keeps: not the binary
sentinel, not over the content-size ceiling, and not empty (the Python
falsiness test `if not file["content"]`). -/
def keepFile (max_file_size : Nat) (f : FlatFile) : Bool :=
  f.content ≠ nonTextSentinel && f.size ≤ max_file_size && f.content ≠ ""

/-- Spec-side concatenation of a list of strings. -/
def concatList : List String → String
  | [] => ""
  | s :: ss => s ++ concatList ss

/-- A directory `r` with one child directory `d` holding a symlink `up`
back to `r`: the cyclic filesystem of the cycle-safety claim. -/
def cycFS : FS := fun p =>
  match p with
  | [a] => if a = "r" then some (Entry.dir ["d"]) else none
  | [a, b] => if a = "r" && b = "d" then some (Entry.dir ["up"]) else none
  | [a, b, c] =>
      if a = "r" && b = "d" && c = "up" then some (Entry.symlink ["r"]) else none
  | _ => none

/-- A pattern-free query rooted at `r`. -/
def qCyc : Query :=
  { local_path := ["r"], subpath := [], ignore_patterns := [], include_patterns := [],
    max_file_size := MAX_FILE_SIZE, slug := "r" }

/-- A directory `r` with a regular file `a.txt` and a symlink `s` to it:
the safe-symlink-to-file filesystem. -/
def linkFS : FS := fun p =>
  match p with
  | [a] => if a = "r" then some (Entry.dir ["a.txt", "s"]) else none
  | [a, b] =>
      if a = "r" && b = "a.txt" then some (Entry.file ⟨3, [104, 105, 10], "hi\n"⟩)
      else if a = "r" && b = "s" then some (Entry.symlink ["r", "a.txt"]) else none
  | _ => none

/-- Repository root `l` containing `sub/` (with symlink `s`) and `out.txt`;
`s` points at `out.txt`, which is inside `l` but outside the scan root
`l/sub`. -/
def subFS : FS := fun p =>
  match p with
  | [a] => if a = "l" then some (Entry.dir ["sub", "out.txt"]) else none
  | [a, b] =>
      if a = "l" && b = "sub" then some (Entry.dir ["s"])
      else if a = "l" && b = "out.txt" then some (Entry.file ⟨1, [120], "x"⟩) else none
  | [a, b, c] =>
      if a = "l" && b = "sub" && c = "s" then some (Entry.symlink ["l", "out.txt"]) else none
  | _ => none

/-- The query for `subFS`: `local_path` is `l`, `subpath` is `sub`. -/
def qSub : Query :=
  { local_path := ["l"], subpath := ["sub"], ignore_patterns := [], include_patterns := [],
    max_file_size := MAX_FILE_SIZE, slug := "l" }

/-- A root `p` holding `a.py` and `a.txt`, scanned with include pattern
`*.py`. -/
def pyFS : FS := fun p =>
  match p with
  | [a] => if a = "p" then some (Entry.dir ["a.py", "a.txt"]) else none
  | [a, b] =>
      if a = "p" && b = "a.py" then some (Entry.file ⟨2, [120, 10], "x\n"⟩)
      else if a = "p" && b = "a.txt" then some (Entry.file ⟨2, [121, 10], "y\n"⟩) else none
  | _ => none

/-- The query for `pyFS` with include pattern `*.py`. -/
def qPy : Query :=
  { local_path := ["p"], subpath := [], ignore_patterns := [], include_patterns := ["*.py"],
    max_file_size := MAX_FILE_SIZE, slug := "p" }

/-- A root `e` holding a single empty text file `a.txt`. -/
def emptyFS : FS := fun p =>
  match p with
  | [a] => if a = "e" then some (Entry.dir ["a.txt"]) else none
  | [a, b] => if a = "e" && b = "a.txt" then some (Entry.file ⟨0, [], ""⟩) else none
  | _ => none

/-- The pattern-free query for `emptyFS`. -/
def qE : Query :=
  { local_path := ["e"], subpath := [], ignore_patterns := [], include_patterns := [],
    max_file_size := MAX_FILE_SIZE, slug := "e" }

/-- A root `z` with no entries at all. -/
def zeroFS : FS := fun p =>
  match p with
  | [a] => if a = "z" then some (Entry.dir []) else none
  | _ => none

/-- The pattern-free query for `zeroFS`. -/
def qZ : Query :=
  { local_path := ["z"], subpath := [], ignore_patterns := [], include_patterns := [],
    max_file_size := MAX_FILE_SIZE, slug := "z" }

/-- A root `o` holding a symlink `s` whose target `x/secret` lies entirely
outside the repository root. -/
def escFS : FS := fun p =>
  match p with
  | [a] => if a = "o" then some (Entry.dir ["s"]) else none
  | [a, b] => if a = "o" && b = "s" then some (Entry.symlink ["x", "secret"]) else none
  | _ => none

/-- The pattern-free query for `escFS`. -/
def qO : Query :=
  { local_path := ["o"], subpath := [], ignore_patterns := [], include_patterns := [],
    max_file_size := MAX_FILE_SIZE, slug := "o" }

/-- A scan function stub for instantiating the item-processor lemmas at
concrete inputs. -/
def scanStub : ScanFn := fun _ _ sn st => (none, sn, st)

/-- A root `t` holding two zero-size files `a` and `b`: scanning it with
the running file count one below the ceiling drives `_process_file`
through the ceiling. -/
def twoFS : FS := fun p =>
  match p with
  | [a] => if a = "t" then some (Entry.dir ["a", "b"]) else none
  | [a, _] => if a = "t" then some (Entry.file ⟨0, [], ""⟩) else none
  | _ => none

/-- The pattern-free query for `twoFS`. -/
def qT : Query :=
  { local_path := ["t"], subpath := [], ignore_patterns := [], include_patterns := [],
    max_file_size := MAX_FILE_SIZE, slug := "t" }

/-! ### Counting file nodes, and permutation facts about `sort_children` -/

theorem countFilesList_cons (c : Node) (cs : List Node) :
    countFilesList (c :: cs) = countFiles c + countFilesList cs := by
  simp [countFilesList]

theorem countFilesList_append (l1 l2 : List Node) :
    countFilesList (l1 ++ l2) = countFilesList l1 + countFilesList l2 := by
  induction l1 with
  | nil => simp [countFilesList]
  | cons c cs ih => simp [countFilesList, ih]; omega

theorem countFilesList_perm {l1 l2 : List Node} (h : l1.Perm l2) :
    countFilesList l1 = countFilesList l2 := by
  induction h with
  | nil => rfl
  | cons x _ ih => simp [countFilesList, ih]
  | swap x y l => simp [countFilesList]; omega
  | trans _ _ ih1 ih2 => omega

theorem perm_sort_parts (p1 p2 p3 : Node → Bool) (l : List Node) :
    List.Perm
      ((l.filter p1).filter p2 ++
        sortByName (((l.filter p1).filter fun x => !p2 x).filter fun x => !p3 x) ++
        sortByName (((l.filter p1).filter fun x => !p2 x).filter p3) ++
        sortByName ((l.filter fun x => !p1 x).filter fun x => !p3 x) ++
        sortByName ((l.filter fun x => !p1 x).filter p3))
      l := by
  have hs : ∀ g : List Node, List.Perm (sortByName g) g := fun g =>
    List.perm_insertionSort nameLe g
  have hBC : List.Perm
      ((((l.filter p1).filter fun x => !p2 x).filter fun x => !p3 x) ++
        (((l.filter p1).filter fun x => !p2 x).filter p3))
      ((l.filter p1).filter fun x => !p2 x) :=
    List.perm_append_comm.trans (List.filter_append_perm p3 _)
  have hDE : List.Perm
      (((l.filter fun x => !p1 x).filter fun x => !p3 x) ++
        ((l.filter fun x => !p1 x).filter p3))
      (l.filter fun x => !p1 x) :=
    List.perm_append_comm.trans (List.filter_append_perm p3 _)
  have hA : List.Perm
      ((l.filter p1).filter p2 ++ ((l.filter p1).filter fun x => !p2 x))
      (l.filter p1) := List.filter_append_perm p2 _
  have hF : List.Perm ((l.filter p1) ++ (l.filter fun x => !p1 x)) l :=
    List.filter_append_perm p1 l
  have P0 :
      List.Perm
        ((l.filter p1).filter p2 ++
          sortByName (((l.filter p1).filter fun x => !p2 x).filter fun x => !p3 x) ++
          sortByName (((l.filter p1).filter fun x => !p2 x).filter p3) ++
          sortByName ((l.filter fun x => !p1 x).filter fun x => !p3 x) ++
          sortByName ((l.filter fun x => !p1 x).filter p3))
        ((l.filter p1).filter p2 ++
          (((l.filter p1).filter fun x => !p2 x).filter fun x => !p3 x) ++
          (((l.filter p1).filter fun x => !p2 x).filter p3) ++
          ((l.filter fun x => !p1 x).filter fun x => !p3 x) ++
          ((l.filter fun x => !p1 x).filter p3)) :=
    ((((List.Perm.refl _).append (hs _)).append (hs _)).append (hs _)).append (hs _)
  have P1 : List.Perm
      ((l.filter p1).filter p2 ++
        ((((l.filter p1).filter fun x => !p2 x).filter fun x => !p3 x) ++
          (((l.filter p1).filter fun x => !p2 x).filter p3)))
      (l.filter p1) :=
    (hBC.append_left _).trans hA
  have P2 : List.Perm
      (((l.filter p1).filter p2 ++
          ((((l.filter p1).filter fun x => !p2 x).filter fun x => !p3 x) ++
            (((l.filter p1).filter fun x => !p2 x).filter p3))) ++
        ((((l.filter fun x => !p1 x).filter fun x => !p3 x) ++
          ((l.filter fun x => !p1 x).filter p3))))
      l :=
    (P1.append hDE).trans hF
  refine P0.trans ?_
  have E1 :
      (l.filter p1).filter p2 ++
          (((l.filter p1).filter fun x => !p2 x).filter fun x => !p3 x) ++
          (((l.filter p1).filter fun x => !p2 x).filter p3) ++
          ((l.filter fun x => !p1 x).filter fun x => !p3 x) ++
          ((l.filter fun x => !p1 x).filter p3) =
        ((l.filter p1).filter p2 ++
            ((((l.filter p1).filter fun x => !p2 x).filter fun x => !p3 x) ++
              (((l.filter p1).filter fun x => !p2 x).filter p3))) ++
          ((((l.filter fun x => !p1 x).filter fun x => !p3 x) ++
            ((l.filter fun x => !p1 x).filter p3))) := by
    simp [List.append_assoc]
  rw [E1]
  exact P2

theorem sort_children_perm (l : List Node) : (sort_children l).Perm l := by
  have h := perm_sort_parts (fun c => isFileNode c)
    (fun f => lowerName f == "readme.md") (fun f => startsDot f) l
  simpa [sort_children] using h

theorem countFilesList_sort_children (l : List Node) :
    countFilesList (sort_children l) = countFilesList l :=
  countFilesList_perm (sort_children_perm l)

/-! ### The walk invariant lemmas -/

theorem StepOk.base (st : Stats) (c : List Node) : StepOk st st c c := by
  constructor <;> omega

theorem StepOk.same_children {st st' : Stats} {c c₂ : List Node}
    (h : StepOk st st' c c₂) (c' : List Node) (hc : countFilesList c₂ = countFilesList c') :
    StepOk st st' c c' := by
  obtain ⟨h1, h2, h3, h4⟩ := h
  constructor <;> omega

theorem StepOk.of_no_new {st st' : Stats} (h : StepOk st st' [] []) (c : List Node) :
    StepOk st st' c c := by
  obtain ⟨h1, h2, h3, h4⟩ := h
  simp only [countFilesList] at h4
  constructor <;> omega

theorem StepOk.trans {st1 st2 st3 : Stats} {c1 c2 c3 : List Node}
    (a : StepOk st1 st2 c1 c2) (b : StepOk st2 st3 c2 c3) : StepOk st1 st3 c1 c3 := by
  obtain ⟨a1, a2, a3, a4⟩ := a
  obtain ⟨b1, b2, b3, b4⟩ := b
  constructor <;> omega

theorem process_file_stepOk (item : GPath) (d : FileData) (r : DirResult) (st : Stats) :
    StepOk st (process_file item d r st).2.1 r.children (process_file item d r st).1.children := by
  unfold process_file
  dsimp only
  split
  · exact StepOk.base st r.children
  · rename_i hsz
    split
    · rename_i hcnt
      refine ⟨?_, ?_, ?_, ?_⟩ <;> dsimp only <;> omega
    · rename_i hcnt
      refine ⟨?_, ?_, ?_, ?_⟩ <;> dsimp only
      · omega
      · omega
      · omega
      · simp only [countFilesList_append, countFilesList, countFiles]
        omega

theorem countFiles_rename (m : Node) (nm : String) (p : GPath) :
    countFiles (renameNode m nm p) = countFiles m := by
  cases m <;> simp [renameNode, countFiles]

theorem process_symlink_stepOk (fs : FS) {scan : ScanFn} (hs : ScanSpec scan)
    (item : GPath) (depth : Nat) (base_path : GPath) (inc : List String)
    (r : DirResult) (st : Stats) (sn : List GPath) :
    StepOk st (process_symlink fs scan item depth base_path inc r st sn).2.1
      r.children (process_symlink fs scan item depth base_path inc r st sn).1.children := by
  unfold process_symlink
  dsimp only
  split
  · exact StepOk.base st r.children
  · split
    · exact StepOk.base st r.children
    · split
      · rename_i d heq
        split
        · exact StepOk.base st r.children
        · rename_i hsz
          split
          · rename_i hcnt
            refine ⟨?_, ?_, ?_, ?_⟩ <;> dsimp only <;> omega
          · rename_i hcnt
            refine ⟨?_, ?_, ?_, ?_⟩ <;> dsimp only
            · omega
            · omega
            · omega
            · simp only [countFilesList_append, countFilesList, countFiles]
              omega
      · rename_i names heq
        rcases hscan : scan (resolvePath fs item) (depth + 1) sn st with ⟨sub, sn2, st2⟩
        have hstep := hs.step (resolvePath fs item) (depth + 1) sn st
        rw [hscan] at hstep
        dsimp only at hstep
        dsimp only
        match sub with
        | none => exact hstep.of_no_new r.children
        | some m =>
          have hcb := hs.count_bound (resolvePath fs item) (depth + 1) sn st m
          rw [hscan] at hcb
          have hcb := hcb rfl
          dsimp only at hcb
          dsimp only
          split
          · obtain ⟨h1, h2, h3, h4⟩ := hstep
            refine ⟨h1, h2, h3, ?_⟩
            simp only [countFilesList_append, countFilesList, countFiles_rename]
            simp only [countFilesList] at h4 ⊢
            omega
          · exact hstep.of_no_new r.children
      · exact StepOk.base st r.children

theorem process_item_stepOk (fs : FS) (q : Query) {scan : ScanFn} (hs : ScanSpec scan)
    (item : GPath) (depth : Nat) (r : DirResult) (st : Stats) (sn : List GPath) :
    StepOk st (process_item fs q scan item depth r st sn).2.1
      r.children (process_item fs q scan item depth r st sn).1.children := by
  unfold process_item
  dsimp only
  split
  · exact StepOk.base st r.children
  · split
    · exact StepOk.base st r.children
    · by_cases hsym : isSymlinkPath fs item
      all_goals simp only [hsym, if_true, if_false, Bool.false_eq_true]
      · rcases hps : process_symlink fs scan item depth q.local_path q.include_patterns r st sn
          with ⟨r1, st1, sn1, e1⟩
        have h1 := process_symlink_stepOk fs hs item depth q.local_path q.include_patterns r st sn
        rw [hps] at h1
        dsimp only at h1
        match e1 with
        | some e => exact h1
        | none =>
          dsimp only
          split
          · rcases hpf : process_file item (fileDataAt fs item) r1 st1 with ⟨r2, st2, e2⟩
            have h2 := process_file_stepOk item (fileDataAt fs item) r1 st1
            rw [hpf] at h2
            dsimp only at h2
            dsimp only
            exact h1.trans h2
          · split
            · rcases hscan : scan item (depth + 1) sn1 st1 with ⟨sub, sn2, st2⟩
              have hstep := hs.step item (depth + 1) sn1 st1
              rw [hscan] at hstep
              dsimp only at hstep
              dsimp only
              match sub with
              | none => exact h1.trans (hstep.of_no_new r1.children)
              | some m =>
                have hcb := hs.count_bound item (depth + 1) sn1 st1 m
                rw [hscan] at hcb
                have hcb := hcb rfl
                dsimp only at hcb
                dsimp only
                split
                · refine h1.trans ?_
                  obtain ⟨g1, g2, g3, g4⟩ := hstep
                  refine ⟨g1, g2, g3, ?_⟩
                  simp only [countFilesList_append, countFilesList] at g4 ⊢
                  omega
                · exact h1.trans (hstep.of_no_new r1.children)
            · exact h1
      · split
        · rcases hpf : process_file item (fileDataAt fs item) r st with ⟨r2, st2, e2⟩
          have h2 := process_file_stepOk item (fileDataAt fs item) r st
          rw [hpf] at h2
          dsimp only at h2
          dsimp only
          exact h2
        · split
          · rcases hscan : scan item (depth + 1) sn st with ⟨sub, sn2, st2⟩
            have hstep := hs.step item (depth + 1) sn st
            rw [hscan] at hstep
            dsimp only at hstep
            dsimp only
            match sub with
            | none => exact hstep.of_no_new r.children
            | some m =>
              have hcb := hs.count_bound item (depth + 1) sn st m
              rw [hscan] at hcb
              have hcb := hcb rfl
              dsimp only at hcb
              dsimp only
              split
              · obtain ⟨g1, g2, g3, g4⟩ := hstep
                refine ⟨g1, g2, g3, ?_⟩
                simp only [countFilesList_append, countFilesList] at g4 ⊢
                omega
              · exact hstep.of_no_new r.children
          · exact StepOk.base st r.children

theorem scanFold_stepOk (fs : FS) (q : Query) {scan : ScanFn} (hs : ScanSpec scan)
    (path : GPath) (depth : Nat) :
    ∀ (ns : List String) (r : DirResult) (st : Stats) (sn : List GPath),
      StepOk st (scanFold fs q scan path depth ns r st sn).2.1
        r.children (scanFold fs q scan path depth ns r st sn).1.children := by
  intro ns
  induction ns with
  | nil => intro r st sn; exact StepOk.base st r.children
  | cons n ns ih =>
      intro r st sn
      have h1 := process_item_stepOk fs q hs (path ++ [n]) depth r st sn
      unfold scanFold
      rcases hpi : process_item fs q scan (path ++ [n]) depth r st sn with ⟨r1, st1, sn1, e1⟩
      rw [hpi] at h1
      dsimp only at h1
      match e1 with
      | some e => exact h1
      | none => exact h1.trans (ih r1 st1 sn1)

theorem countFiles_toNode (r : DirResult) :
    countFiles (DirResult.toNode r) = countFilesList r.children := by
  simp [DirResult.toNode, countFiles]

theorem scan_directory_breach (fs : FS) (q : Query) (fuel : Nat) (p : GPath)
    (d : Nat) (sn : List GPath) (st : Stats) (h : st.total_files ≥ MAX_FILES) :
    scan_directory fs q fuel p d sn st = (none, sn, st) := by
  cases fuel with
  | zero => rfl
  | succ fuel =>
      unfold scan_directory
      dsimp only
      split
      · rfl
      · simp [h]

theorem scan_directory_spec (fs : FS) (q : Query) :
    ∀ fuel : Nat, ScanSpec (fun p d s t => scan_directory fs q fuel p d s t) := by
  intro fuel
  induction fuel with
  | zero =>
      refine ⟨fun p d sn st => StepOk.base st [], fun p d sn st h => rfl, ?_⟩
      intro p d sn st n h
      simp [scan_directory] at h
  | succ fuel ih =>
      have main : ∀ (p : GPath) (d : Nat) (sn : List GPath) (st : Stats),
          StepOk st (scan_directory fs q (fuel + 1) p d sn st).2.2 [] [] ∧
          ∀ n, (scan_directory fs q (fuel + 1) p d sn st).1 = some n →
            st.total_files + countFiles n ≤
              min (scan_directory fs q (fuel + 1) p d sn st).2.2.total_files MAX_FILES := by
        intro p d sn st
        unfold scan_directory
        dsimp only
        split
        · exact ⟨StepOk.base st [], by intro n h; simp at h⟩
        split
        · exact ⟨StepOk.base st [], by intro n h; simp at h⟩
        split
        · exact ⟨StepOk.base st [], by intro n h; simp at h⟩
        split
        · exact ⟨StepOk.base st [], by intro n h; simp at h⟩
        rename_i h1 h2 h3 h4
        rcases hfold : scanFold fs q (fun p d s t => scan_directory fs q fuel p d s t)
            p d (dirNames (fs (resolvePath fs p))) (initResult p) st (resolvePath fs p :: sn)
          with ⟨rr, st2, sn2⟩
        have hfs := scanFold_stepOk fs q ih p d (dirNames (fs (resolvePath fs p)))
          (initResult p) st (resolvePath fs p :: sn)
        rw [hfold] at hfs
        dsimp only at hfs
        obtain ⟨f1, f2, f3, f4⟩ := hfs
        simp only [initResult, countFilesList] at f4
        constructor
        · exact ⟨f1, f2, f3, by simp only [countFilesList]; omega⟩
        · intro n hn
          dsimp only at hn
          rw [Option.some.injEq] at hn
          subst hn
          rw [countFiles_toNode]
          dsimp only
          rw [countFilesList_sort_children]
          simp only [Nat.not_lt, ge_iff_le, Nat.not_le] at h2
          omega
      refine ⟨fun p d sn st => (main p d sn st).1, ?_, fun p d sn st => (main p d sn st).2⟩
      intro p d sn st h
      exact scan_directory_breach fs q (fuel + 1) p d sn st h

theorem scan_directory_succ (fs : FS) (q : Query) (fuel : Nat) (p : GPath) (d : Nat)
    (sn : List GPath) (st : Stats) (h1 : ¬ d > MAX_DIRECTORY_DEPTH)
    (h2 : ¬ st.total_files ≥ MAX_FILES) (h3 : ¬ st.total_size ≥ MAX_TOTAL_SIZE_BYTES)
    (h4 : resolvePath fs p ∉ sn) :
    scan_directory fs q (fuel + 1) p d sn st =
      (some (DirResult.toNode
        { (scanFold fs q (fun p2 d2 s t => scan_directory fs q fuel p2 d2 s t) p d
            (dirNames (fs (resolvePath fs p))) (initResult p) st (resolvePath fs p :: sn)).1 with
          children := sort_children
            (scanFold fs q (fun p2 d2 s t => scan_directory fs q fuel p2 d2 s t) p d
              (dirNames (fs (resolvePath fs p))) (initResult p) st (resolvePath fs p :: sn)).1.children }),
       (scanFold fs q (fun p2 d2 s t => scan_directory fs q fuel p2 d2 s t) p d
          (dirNames (fs (resolvePath fs p))) (initResult p) st (resolvePath fs p :: sn)).2.2,
       (scanFold fs q (fun p2 d2 s t => scan_directory fs q fuel p2 d2 s t) p d
          (dirNames (fs (resolvePath fs p))) (initResult p) st (resolvePath fs p :: sn)).2.1) := by
  conv_lhs => unfold scan_directory
  rw [if_neg h1, if_neg h2, if_neg h3, if_neg h4]

theorem scan_directory_some (fs : FS) (q : Query) (fuel : Nat) (p : GPath) (d : Nat)
    (sn : List GPath) (st : Stats) (hd : d ≤ MAX_DIRECTORY_DEPTH)
    (hf : st.total_files < MAX_FILES) (hsz : st.total_size < MAX_TOTAL_SIZE_BYTES)
    (hseen : resolvePath fs p ∉ sn) :
    ∃ n, (scan_directory fs q (fuel + 1) p d sn st).1 = some n := by
  rw [scan_directory_succ fs q fuel p d sn st (by omega) (by omega) (by omega) hseen]
  exact ⟨_, rfl⟩

/-! ### The claims -/

/-- C1: for every directory scan, the tree returned by `_scan_directory`
from fresh statistics contains at most `MAX_FILES` file nodes, never more;
once the running count has reached the ceiling, a scan admits nothing
further (it returns `None` without touching stats or the visited set); and
whenever the entry guards pass, the scan still returns the partially built
directory node rather than failing. -/
theorem C1_file_count_ceiling :
    (∀ (fs : FS) (q : Query) (path : GPath) (n : Node),
        (scanRoot fs q path).1 = some n → countFiles n ≤ MAX_FILES) ∧
    (∀ (fs : FS) (q : Query) (fuel : Nat) (p : GPath) (d : Nat) (sn : List GPath) (st : Stats),
        st.total_files ≥ MAX_FILES → scan_directory fs q fuel p d sn st = (none, sn, st)) ∧
    (∀ (fs : FS) (q : Query) (fuel : Nat) (p : GPath) (d : Nat) (sn : List GPath) (st : Stats),
        d ≤ MAX_DIRECTORY_DEPTH → st.total_files < MAX_FILES →
        st.total_size < MAX_TOTAL_SIZE_BYTES → resolvePath fs p ∉ sn →
        (scan_directory fs q (fuel + 1) p d sn st).1.isSome = true) := by
  refine ⟨?_, ?_, ?_⟩
  · intro fs q path n h
    have hcb := (scan_directory_spec fs q (MAX_DIRECTORY_DEPTH + 2)).count_bound path 0 [] ⟨0, 0⟩ n
    simp only [scanRoot] at h
    have hcb := hcb h
    have h0 : (⟨0, 0⟩ : Stats).total_files = 0 := rfl
    omega
  · intro fs q fuel p d sn st h
    exact scan_directory_breach fs q fuel p d sn st h
  · intro fs q fuel p d sn st hd hf hsz hseen
    obtain ⟨n, hn⟩ := scan_directory_some fs q fuel p d sn st hd hf hsz hseen
    rw [hn]
    rfl

/-- Witness for C1 at concrete inputs: the scan of the one-file tree
`emptyFS`, the refusal at a saturated counter, and the partial-result
guarantee at fresh state. -/
theorem C1_file_count_ceiling_witness :
    countFiles (Node.dir "e" 0 [Node.file "a.txt" 0 "" ["e", "a.txt"]] 1 0 ["e"] false)
      ≤ MAX_FILES ∧
    scan_directory emptyFS qE 22 ["e"] 0 [] ⟨MAX_FILES, 0⟩ = (none, [], ⟨MAX_FILES, 0⟩) ∧
    (scan_directory emptyFS qE (21 + 1) ["e"] 0 [] ⟨0, 0⟩).1.isSome = true :=
  ⟨C1_file_count_ceiling.1 emptyFS qE ["e"]
      (Node.dir "e" 0 [Node.file "a.txt" 0 "" ["e", "a.txt"]] 1 0 ["e"] false) (by rfl),
   C1_file_count_ceiling.2.1 emptyFS qE 22 ["e"] 0 [] ⟨MAX_FILES, 0⟩ (by simp),
   C1_file_count_ceiling.2.2 emptyFS qE 21 ["e"] 0 [] ⟨0, 0⟩
     (by simp [MAX_DIRECTORY_DEPTH]) (by simp [MAX_FILES])
     (by simp [MAX_TOTAL_SIZE_BYTES]) (by simp)⟩

/-- C2 counterexample: a directory scan over two zero-size files that
starts with the running count one below the ceiling ends with
`stats["total_files"] = MAX_FILES + 1`, strictly above the ceiling (the
first file fills the ceiling, the second is refused only after its
increment has been committed), and `_process_file` itself, entered at a
full counter, returns stats carrying `MAX_FILES + 1` — the count ceiling
is checked only after the counter has been incremented, so the counter
overshoots. -/
theorem C2_counterexample :
    (scan_directory twoFS qT 1 ["t"] 0 [] ⟨MAX_FILES - 1, 0⟩).2.2.total_files
      = MAX_FILES + 1 ∧
    (process_file ["t", "b"] ⟨0, [], ""⟩ (initResult ["t"])
      ⟨MAX_FILES, 0⟩).2.1.total_files = MAX_FILES + 1 ∧
    MAX_FILES + 1 > MAX_FILES :=
  ⟨rfl, rfl, by omega⟩

/-- C2 (amended): the byte-size ceiling really is checked before the
counters are committed, so `stats["total_size"]` never exceeds
`MAX_TOTAL_SIZE_BYTES`; the file-count check, however, runs after the
increment: when the incremented counter exceeds `MAX_FILES`, the stats
keep the overshooting value and `MaxFilesReachedError` is raised before
any node is appended, so the breach stops admission without aborting. -/
theorem C2_amended_ceiling_checks :
    (∀ (fs : FS) (q : Query) (fuel : Nat) (p : GPath) (d : Nat) (sn : List GPath) (st : Stats),
        st.total_size ≤ MAX_TOTAL_SIZE_BYTES →
        (scan_directory fs q fuel p d sn st).2.2.total_size ≤ MAX_TOTAL_SIZE_BYTES) ∧
    (∀ (item : GPath) (dta : FileData) (r : DirResult) (st : Stats),
        ¬ st.total_size + dta.size > MAX_TOTAL_SIZE_BYTES →
        st.total_files + 1 > MAX_FILES →
        process_file item dta r st =
          (r, ⟨st.total_files + 1, st.total_size + dta.size⟩, some Exc.maxFiles)) := by
  constructor
  · intro fs q fuel p d sn st h
    have hstep := (scan_directory_spec fs q fuel).step p d sn st
    have h3 := hstep.size_bound
    omega
  · intro item dta r st h1 h2
    unfold process_file
    dsimp only
    rw [if_neg h1, if_pos (show (⟨st.total_files + 1, st.total_size + dta.size⟩ : Stats).total_files > MAX_FILES from h2)]

/-- Witness for C2 (amended) at concrete inputs. -/
theorem C2_amended_ceiling_checks_witness :
    (scan_directory zeroFS qZ 5 ["z"] 0 [] ⟨0, 0⟩).2.2.total_size ≤ MAX_TOTAL_SIZE_BYTES ∧
    process_file ["z", "f"] ⟨0, [], ""⟩ (initResult ["z"]) ⟨MAX_FILES, 0⟩ =
      (initResult ["z"], ⟨MAX_FILES + 1, 0⟩, some Exc.maxFiles) :=
  ⟨C2_amended_ceiling_checks.1 zeroFS qZ 5 ["z"] 0 [] ⟨0, 0⟩ (by simp [MAX_TOTAL_SIZE_BYTES]),
   C2_amended_ceiling_checks.2 ["z", "f"] ⟨0, [], ""⟩ (initResult ["z"]) ⟨MAX_FILES, 0⟩
     (by simp [MAX_TOTAL_SIZE_BYTES]) (by simp [MAX_FILES])⟩


/-- C3: the recursive walk terminates on every input, including a symlink
to an ancestor directory: any call past the depth ceiling returns `None`,
a directory whose canonical path is already in the visited set returns
`None` without being descended into, and on the concrete cyclic filesystem
(`r/d/up` a symlink back to `r`) the scan terminates with the cyclic
branch omitted from the resulting tree. -/
theorem C3_cycle_safety :
    (∀ (fs : FS) (q : Query) (fuel : Nat) (p : GPath) (d : Nat) (sn : List GPath) (st : Stats),
        d > MAX_DIRECTORY_DEPTH → (scan_directory fs q fuel p d sn st).1 = none) ∧
    (∀ (fs : FS) (q : Query) (fuel : Nat) (p : GPath) (d : Nat) (sn : List GPath) (st : Stats),
        resolvePath fs p ∈ sn → (scan_directory fs q fuel p d sn st).1 = none) ∧
    (scanRoot cycFS qCyc ["r"]).1 =
      some (Node.dir "r" 0 [Node.dir "d" 0 [] 0 0 ["r", "d"] false] 0 1 ["r"] false) := by
  refine ⟨?_, ?_, by rfl⟩
  · intro fs q fuel p d sn st h
    cases fuel with
    | zero => rfl
    | succ fuel =>
        unfold scan_directory
        dsimp only
        rw [if_pos h]
  · intro fs q fuel p d sn st h
    cases fuel with
    | zero => rfl
    | succ fuel =>
        unfold scan_directory
        dsimp only
        split
        · rfl
        split
        · rfl
        split
        · rfl
        simp [h]

/-- Witness for C3 at concrete inputs: the depth guard and the visited-set
guard observed on the cyclic filesystem. -/
theorem C3_cycle_safety_witness :
    (scan_directory cycFS qCyc 22 ["r"] 21 [] ⟨0, 0⟩).1 = none ∧
    (scan_directory cycFS qCyc 22 ["r"] 0 [["r"]] ⟨0, 0⟩).1 = none :=
  ⟨C3_cycle_safety.1 cycFS qCyc 22 ["r"] 21 [] ⟨0, 0⟩ (by simp [MAX_DIRECTORY_DEPTH]),
   C3_cycle_safety.2.1 cycFS qCyc 22 ["r"] 0 [["r"]] ⟨0, 0⟩
     (by simp [resolvePath, List.foldl, resolveStep, cycFS])⟩

/-- C4 counterexample: with subpath `sub`, the symlink `l/sub/s` points at
`l/out.txt`, which is outside the resolved scan-root subtree `l/sub`; the
claim says such a symlink is never followed and contributes nothing, but
the code checks safety against `local_path` only, follows it, and the
target appears in the tree model (twice, through the missing-elif path). -/
theorem C4_counterexample :
    is_safe_symlink subFS ["l", "sub", "s"] qSub.local_path = true ∧
    (resolvePath subFS (runIngestRootPath qSub)).isPrefixOf
      (resolvePath subFS ["l", "sub", "s"]) = false ∧
    (scanRoot subFS qSub (runIngestRootPath qSub)).1 =
      some (Node.dir "sub" 2
        [Node.file "s" 1 "x" ["l", "sub", "s"], Node.file "s" 1 "x" ["l", "sub", "s"]]
        2 0 ["l", "sub"] false) :=
  ⟨by rfl, by rfl, by rfl⟩

/-- C4 (amended): the escape check is made against the resolved
`local_path` (the repository root), not against the subpath-scoped scan
root: a symlink whose resolved target lies outside the resolved
`local_path` subtree is never followed — `_process_item` on it leaves the
children, the stats and the visited set untouched and swallows the
rejection, regardless of the include/exclude pattern filters. -/
theorem C4_amended_escape :
    ∀ (fs : FS) (q : Query) (scan : ScanFn) (item : GPath) (depth : Nat)
      (r : DirResult) (st : Stats) (sn : List GPath),
      isSymlinkPath fs item = true →
      (resolvePath fs q.local_path).isPrefixOf (resolvePath fs item) = false →
      (process_item fs q scan item depth r st sn).1.children = r.children ∧
      (process_item fs q scan item depth r st sn).2.1 = st ∧
      (process_item fs q scan item depth r st sn).2.2.1 = sn ∧
      (process_item fs q scan item depth r st sn).2.2.2 = none := by
  intro fs q scan item depth r st sn hsym hesc
  have hsafe : is_safe_symlink fs item q.local_path = false := hesc
  unfold process_item
  dsimp only
  split
  · exact ⟨rfl, rfl, rfl, rfl⟩
  split
  · exact ⟨rfl, rfl, rfl, rfl⟩
  unfold process_symlink
  simp [hsym, hsafe, catchExc]

/-- Witness for C4 (amended): the out-of-root symlink `o/s → x/secret`. -/
theorem C4_amended_escape_witness :
    (process_item escFS qO scanStub ["o", "s"] 0 (initResult ["o"]) ⟨0, 0⟩ [["o"]]).1.children
      = (initResult ["o"]).children ∧
    (process_item escFS qO scanStub ["o", "s"] 0 (initResult ["o"]) ⟨0, 0⟩ [["o"]]).2.1
      = (⟨0, 0⟩ : Stats) ∧
    (process_item escFS qO scanStub ["o", "s"] 0 (initResult ["o"]) ⟨0, 0⟩ [["o"]]).2.2.1
      = [["o"]] ∧
    (process_item escFS qO scanStub ["o", "s"] 0 (initResult ["o"]) ⟨0, 0⟩ [["o"]]).2.2.2
      = none :=
  C4_amended_escape escFS qO scanStub ["o", "s"] 0 (initResult ["o"]) ⟨0, 0⟩ [["o"]]
    (by rfl) (by rfl)

/-- C5: the code does not treat a followed safe symlink to a file like a
single regular file — `_process_item` tests `item.is_symlink()` and then
`item.is_file()` in a separate `if` (not `elif`), so `r/s → r/a.txt` is
appended by `_process_symlink` and then again by `_process_file`: the scan
of `linkFS` counts the symlinked file twice (stats `total_files = 3`,
`total_size = 9` for two physical files of 3 bytes) and the parent holds
two identical `s` child nodes, where the spec requires exactly one. -/
theorem C5_symlink_file_double_processed :
    (scanRoot linkFS qCyc ["r"]).2.2 = (⟨3, 9⟩ : Stats) ∧
    (scanRoot linkFS qCyc ["r"]).1 =
      some (Node.dir "r" 9
        [Node.file "a.txt" 3 "hi\n" ["r", "a.txt"], Node.file "s" 3 "hi\n" ["r", "s"],
         Node.file "s" 3 "hi\n" ["r", "s"]] 3 0 ["r"] false) :=
  ⟨by rfl, by rfl⟩

theorem filter_filter_node (p q : Node → Bool) (l : List Node) :
    (l.filter p).filter q = l.filter (fun n => p n && q n) := by
  induction l with
  | nil => rfl
  | cons a l ih =>
      cases hp : p a <;> cases hq : q a <;>
        simp [List.filter_cons, hp, hq, ih]

theorem pairwise_rank_five {g0 g1 g2 g3 g4 : List Node}
    (h0 : ∀ x ∈ g0, childRank x = 0) (h1 : ∀ x ∈ g1, childRank x = 1)
    (h2 : ∀ x ∈ g2, childRank x = 2) (h3 : ∀ x ∈ g3, childRank x = 3)
    (h4 : ∀ x ∈ g4, childRank x = 4)
    (s1 : g1.Pairwise nameLe) (s2 : g2.Pairwise nameLe)
    (s3 : g3.Pairwise nameLe) (s4 : g4.Pairwise nameLe) :
    (g0 ++ g1 ++ g2 ++ g3 ++ g4).Pairwise (fun a b =>
      childRank a < childRank b ∨
        (childRank a = childRank b ∧ (childRank a ≠ 0 → nameLe a b))) := by
  have within : ∀ (g : List Node) (k : Nat), k ≠ 0 → (∀ x ∈ g, childRank x = k) →
      g.Pairwise nameLe →
      g.Pairwise (fun a b =>
        childRank a < childRank b ∨
          (childRank a = childRank b ∧ (childRank a ≠ 0 → nameLe a b))) := by
    intro g k hk hg hs
    refine hs.imp_of_mem ?_
    intro a b ha hb hab
    exact Or.inr ⟨by rw [hg a ha, hg b hb], fun _ => hab⟩
  have cross : ∀ (ga gb : List Node) (ka kb : Nat), ka < kb →
      (∀ x ∈ ga, childRank x = ka) → (∀ x ∈ gb, childRank x = kb) →
      ∀ a ∈ ga, ∀ b ∈ gb,
        childRank a < childRank b ∨
          (childRank a = childRank b ∧ (childRank a ≠ 0 → nameLe a b)) := by
    intro ga gb ka kb hlt hga hgb a ha b hb
    left
    rw [hga a ha, hgb b hb]
    exact hlt
  simp only [List.append_assoc]
  rw [List.pairwise_append]
  refine ⟨?_, ?_, ?_⟩
  · refine List.pairwise_of_forall_mem_list ?_
    intro a ha b hb
    exact Or.inr ⟨by rw [h0 a ha, h0 b hb], fun hne => absurd (h0 a ha) hne⟩
  · rw [List.pairwise_append]
    refine ⟨within g1 1 (by omega) h1 s1, ?_, ?_⟩
    · rw [List.pairwise_append]
      refine ⟨within g2 2 (by omega) h2 s2, ?_, ?_⟩
      · rw [List.pairwise_append]
        refine ⟨within g3 3 (by omega) h3 s3, within g4 4 (by omega) h4 s4,
          cross g3 g4 3 4 (by omega) h3 h4⟩
      · intro a ha b hb
        simp only [List.mem_append] at hb
        rcases hb with hb | hb
        · exact cross g2 g3 2 3 (by omega) h2 h3 a ha b hb
        · exact cross g2 g4 2 4 (by omega) h2 h4 a ha b hb
    · intro a ha b hb
      simp only [List.mem_append] at hb
      rcases hb with hb | hb | hb
      · exact cross g1 g2 1 2 (by omega) h1 h2 a ha b hb
      · exact cross g1 g3 1 3 (by omega) h1 h3 a ha b hb
      · exact cross g1 g4 1 4 (by omega) h1 h4 a ha b hb
  · intro a ha b hb
    simp only [List.mem_append] at hb
    rcases hb with hb | hb | hb | hb
    · exact cross g0 g1 0 1 (by omega) h0 h1 a ha b hb
    · exact cross g0 g2 0 2 (by omega) h0 h2 a ha b hb
    · exact cross g0 g3 0 3 (by omega) h0 h3 a ha b hb
    · exact cross g0 g4 0 4 (by omega) h0 h4 a ha b hb

/-- C6 counterexample: on a directory holding the two case-variants
`readme.md` and `README.md`, `_sort_children` keeps the README group in
encounter order: `readme.md` stays first even though `README.md` precedes
it alphabetically, so the output is not the claimed total order (each group
alphabetical). -/
theorem C6_counterexample :
    sort_children [Node.file "readme.md" 1 "" ["x"], Node.file "README.md" 1 "" ["y"]] =
      [Node.file "readme.md" 1 "" ["x"], Node.file "README.md" 1 "" ["y"]] ∧
    nameLe (Node.file "README.md" 1 "" ["y"]) (Node.file "readme.md" 1 "" ["x"]) ∧
    ¬ nameLe (Node.file "readme.md" 1 "" ["x"]) (Node.file "README.md" 1 "" ["y"]) :=
  ⟨by rfl, by decide, by decide⟩

/-- C6 (amended): `_sort_children` returns a permutation of its input in
the order: README.md case-variants first *in their original encounter
order* (not sorted among themselves; the third conjunct pins the readme
nodes of the output to the readme nodes of the input, in input order),
then the remaining non-hidden files alphabetically, hidden files
alphabetically, non-hidden directories alphabetically, hidden directories
alphabetically (alphabetical = code point order on names, as Python's
`list.sort` and `str` comparison). -/
theorem C6_amended_sort_order (l : List Node) :
    (sort_children l).Perm l ∧
    (sort_children l).Pairwise (fun a b =>
      childRank a < childRank b ∨
        (childRank a = childRank b ∧ (childRank a ≠ 0 → nameLe a b))) ∧
    (sort_children l).filter (fun n => isFileNode n && (lowerName n == "readme.md")) =
      l.filter (fun n => isFileNode n && (lowerName n == "readme.md")) := by
  have hmem : ∀ (G : List Node) (x : Node), x ∈ sortByName G → x ∈ G := fun G x hx =>
    (List.perm_insertionSort nameLe G).mem_iff.mp hx
  have hreadme : (sort_children l).filter
        (fun n => isFileNode n && (lowerName n == "readme.md")) =
      l.filter (fun n => isFileNode n && (lowerName n == "readme.md")) := by
    unfold sort_children
    dsimp only
    simp only [List.filter_append]
    have hro : ((l.filter fun c => isFileNode c).filter
          (fun f => lowerName f == "readme.md")).filter
          (fun n => isFileNode n && (lowerName n == "readme.md"))
        = (l.filter fun c => isFileNode c).filter (fun f => lowerName f == "readme.md") := by
      rw [List.filter_eq_self]
      intro a ha
      rw [List.mem_filter] at ha
      obtain ⟨ha1, ha2⟩ := ha
      rw [List.mem_filter] at ha1
      simp [ha1.2, ha2]
    have hnil : ∀ G : List Node,
        (∀ x ∈ G, (isFileNode x && (lowerName x == "readme.md")) = false) →
        (sortByName G).filter (fun n => isFileNode n && (lowerName n == "readme.md")) = [] := by
      intro G hG
      rw [List.filter_eq_nil_iff]
      intro a ha
      rw [hG a (hmem G a ha)]
      exact Bool.false_ne_true
    rw [hro,
      hnil _ (by
        intro x hx
        rw [List.mem_filter] at hx
        obtain ⟨hx1, _⟩ := hx
        rw [List.mem_filter] at hx1
        simp only [Bool.not_eq_true'] at hx1
        simp [hx1.2]),
      hnil _ (by
        intro x hx
        rw [List.mem_filter] at hx
        obtain ⟨hx1, _⟩ := hx
        rw [List.mem_filter] at hx1
        simp only [Bool.not_eq_true'] at hx1
        simp [hx1.2]),
      hnil _ (by
        intro x hx
        rw [List.mem_filter] at hx
        obtain ⟨hx1, _⟩ := hx
        rw [List.mem_filter] at hx1
        simp only [Bool.not_eq_true'] at hx1
        simp [hx1.2]),
      hnil _ (by
        intro x hx
        rw [List.mem_filter] at hx
        obtain ⟨hx1, _⟩ := hx
        rw [List.mem_filter] at hx1
        simp only [Bool.not_eq_true'] at hx1
        simp [hx1.2])]
    simp only [List.append_nil]
    exact filter_filter_node _ _ l
  refine ⟨sort_children_perm l, ?_, hreadme⟩
  unfold sort_children
  dsimp only
  apply pairwise_rank_five
  · intro x hx
    rw [List.mem_filter] at hx
    obtain ⟨hx1, hx2⟩ := hx
    rw [List.mem_filter] at hx1
    simp [childRank, hx1.2, hx2]
  · intro x hx
    have hx := hmem _ _ hx
    rw [List.mem_filter] at hx
    obtain ⟨hx1, hx3⟩ := hx
    rw [List.mem_filter] at hx1
    obtain ⟨hx0, hx2⟩ := hx1
    rw [List.mem_filter] at hx0
    simp only [Bool.not_eq_true'] at hx2 hx3
    simp [childRank, hx0.2, hx2, hx3]
  · intro x hx
    have hx := hmem _ _ hx
    rw [List.mem_filter] at hx
    obtain ⟨hx1, hx3⟩ := hx
    rw [List.mem_filter] at hx1
    obtain ⟨hx0, hx2⟩ := hx1
    rw [List.mem_filter] at hx0
    simp only [Bool.not_eq_true'] at hx2
    simp [childRank, hx0.2, hx2, hx3]
  · intro x hx
    have hx := hmem _ _ hx
    rw [List.mem_filter] at hx
    obtain ⟨hx1, hx2⟩ := hx
    rw [List.mem_filter] at hx1
    simp only [Bool.not_eq_true'] at hx1 hx2
    simp [childRank, hx1.2, hx2]
  · intro x hx
    have hx := hmem _ _ hx
    rw [List.mem_filter] at hx
    obtain ⟨hx1, hx2⟩ := hx
    rw [List.mem_filter] at hx1
    simp only [Bool.not_eq_true'] at hx1
    simp [childRank, hx1.2, hx2]
  · exact List.sorted_insertionSort nameLe _
  · exact List.sorted_insertionSort nameLe _
  · exact List.sorted_insertionSort nameLe _
  · exact List.sorted_insertionSort nameLe _

/-- C7: include patterns are applied only to files. A directory item that
survives exclusion is always recursed into — the stats and visited set the
item processor returns are exactly those produced by the recursive scan
call, with no condition on whether the directory itself matches the
include patterns — and the recursed node is attached exactly when the scan
returned a node and (include patterns are inactive or the subtree contains
an included file, `file_count > 0`).  A file item that fails the active
include patterns is skipped without creating a node, only setting the
parent's `ignore_content` flag.  On the spec's scenario (include `*.py`
over `a.py`/`a.txt`) the scan keeps only `a.py`, flags `ignore_content`,
and the rendered content string holds exactly the `a.py` block. -/
theorem C7_include_patterns_only_files :
    (∀ (fs : FS) (q : Query) (scan : ScanFn) (item : GPath) (depth : Nat)
        (r : DirResult) (st : Stats) (sn : List GPath),
      should_exclude item q.local_path q.ignore_patterns = false →
      isSymlinkPath fs item = false →
      isFilePath fs item = false →
      isDirPath fs item = true →
      (process_item fs q scan item depth r st sn).2.1 = (scan item (depth + 1) sn st).2.2 ∧
      (process_item fs q scan item depth r st sn).2.2.1 = (scan item (depth + 1) sn st).2.1 ∧
      (process_item fs q scan item depth r st sn).2.2.2 = none ∧
      ∀ m, (scan item (depth + 1) sn st).1 = some m →
        (process_item fs q scan item depth r st sn).1.children =
          (if q.include_patterns.isEmpty || nodeFileCount m > 0
           then r.children ++ [m] else r.children)) ∧
    (∀ (fs : FS) (q : Query) (scan : ScanFn) (item : GPath) (depth : Nat)
        (r : DirResult) (st : Stats) (sn : List GPath),
      should_exclude item q.local_path q.ignore_patterns = false →
      isFilePath fs item = true →
      q.include_patterns.isEmpty = false →
      should_include item q.local_path q.include_patterns = false →
      process_item fs q scan item depth r st sn =
        ({ r with ignore_content := true }, st, sn, none)) ∧
    (scanRoot pyFS qPy ["p"]).1 =
      some (Node.dir "p" 2 [Node.file "a.py" 2 "x\n" ["p", "a.py"]] 1 0 ["p"] true) ∧
    create_file_content_string (extract_files_content qPy qPy.max_file_size
        (Node.dir "p" 2 [Node.file "a.py" 2 "x\n" ["p", "a.py"]] 1 0 ["p"] true) []) =
      separator ++ "File: a.py\n" ++ separator ++ "x\n\n\n" := by
  refine ⟨?_, ?_, by rfl, by rfl⟩
  · intro fs q scan item depth r st sn hexc hsym hfile hdir
    unfold process_item
    dsimp only
    rw [hexc, hsym, hfile, hdir]
    simp only [Bool.false_eq_true, if_false, Bool.false_and, if_true]
    rcases hscan : scan item (depth + 1) sn st with ⟨sub, sn2, st2⟩
    dsimp only
    match sub with
    | none => exact ⟨rfl, rfl, rfl, fun m hm => by simp at hm⟩
    | some m =>
        refine ⟨?_, ?_, ?_, ?_⟩
        · dsimp only
          split <;> rfl
        · dsimp only
          split <;> rfl
        · dsimp only
          split <;> simp [catchExc]
        · intro m2 hm2
          rw [Option.some.injEq] at hm2
          subst hm2
          dsimp only
          split
          · rfl
          · rfl
  · intro fs q scan item depth r st sn hexc hfile hinc hmatch
    unfold process_item
    dsimp only
    rw [hexc, hfile, hinc, hmatch]
    simp only [Bool.false_eq_true, if_false, Bool.not_false, Bool.true_and, Bool.and_true,
      if_true]

/-- Witness for C7 at concrete inputs: the directory `r/d` of `cycFS` is
recursed into (the stats are those of the recursive call), and `p/a.txt`
under include pattern `*.py` only flips `ignore_content`. -/
theorem C7_include_patterns_only_files_witness :
    (process_item cycFS qCyc scanStub ["r", "d"] 0 (initResult ["r"]) ⟨0, 0⟩ [["r"]]).2.1 =
      (scanStub ["r", "d"] 1 [["r"]] ⟨0, 0⟩).2.2 ∧
    process_item pyFS qPy scanStub ["p", "a.txt"] 0 (initResult ["p"]) ⟨0, 0⟩ [["p"]] =
      ({ initResult ["p"] with ignore_content := true }, ⟨0, 0⟩, [["p"]], none) :=
  ⟨(C7_include_patterns_only_files.1 cycFS qCyc scanStub ["r", "d"] 0 (initResult ["r"])
      ⟨0, 0⟩ [["r"]] (by rfl) (by rfl) (by rfl) (by rfl)).1,
   C7_include_patterns_only_files.2.1 pyFS qPy scanStub ["p", "a.txt"] 0 (initResult ["p"])
      ⟨0, 0⟩ [["p"]] (by rfl) (by rfl) (by rfl) (by rfl)⟩

/-- C8 counterexample: a file whose first byte is 7 (bell) is classified
as text by `_is_text_file` — byte 7 is in the code's delete table — but
bell is outside the allow-list the claim describes (tab, newline, carriage
return, form feed, escape, printable range), under which the file would be
binary. -/
theorem C8_counterexample :
    is_text_file ⟨1, [7], ""⟩ = true ∧ [7].all isTextAllowedSpec = false :=
  ⟨by rfl, by rfl⟩

/-- C8 (amended): `_is_text_file` returns true exactly when every byte of
the first 1024 lies in the allow-list {bell, backspace, tab, newline, form
feed, carriage return, escape} ∪ [0x20, 0xFF] — i.e. the spec's list plus
bell and backspace, with the high range running to 0xFF. -/
theorem C8_amended_text_classifier (d : FileData) :
    is_text_file d =
      (d.sample.take 1024).all (fun b =>
        [7, 8, 9, 10, 12, 13, 27].contains b || (0x20 ≤ b && b ≤ 0xFF)) := by
  unfold is_text_file
  generalize d.sample.take 1024 = l
  induction l with
  | nil => rfl
  | cons b bs ih =>
      have hb : textDeleteSet b =
          ([7, 8, 9, 10, 12, 13, 27].contains b || (0x20 ≤ b && b ≤ 0xFF)) := by
        unfold textDeleteSet
        have h2 : (decide (b < 0x100)) = (decide (b ≤ 0xFF)) :=
          decide_eq_decide.mpr (by omega)
        rw [h2]
      by_cases h : textDeleteSet b = true
      · simp only [List.filter_cons, List.all_cons, h, Bool.not_true, Bool.false_eq_true,
          if_false, ih, ← hb, h, Bool.true_and]
      · rw [Bool.not_eq_true] at h
        simp only [List.filter_cons, List.all_cons, h, Bool.not_false, if_true,
          List.isEmpty_cons, ← hb, h, Bool.false_and]

theorem fcs_foldl_acc (l : List FileInfo) :
    ∀ s : String,
      l.foldl (fun output f =>
        match f.content with
        | none => output
        | some c =>
            if c = "" then output
            else
              output ++ separator ++ "File: " ++ relStr f.path ++ "\n" ++ separator ++
                c ++ "\n\n") s
      = s ++ l.foldl (fun output f =>
        match f.content with
        | none => output
        | some c =>
            if c = "" then output
            else
              output ++ separator ++ "File: " ++ relStr f.path ++ "\n" ++ separator ++
                c ++ "\n\n") "" := by
  induction l with
  | nil => intro s; simp
  | cons f fl ih =>
      intro s
      rw [List.foldl_cons, List.foldl_cons]
      cases hc : f.content with
      | none => exact ih s
      | some c =>
          dsimp only
          by_cases h : c = ""
          · rw [if_pos h, if_pos h]
            exact ih s
          · rw [if_neg h, if_neg h]
            conv_rhs => rw [ih]
            rw [ih]
            simp [String.append_assoc]

theorem fcs_append (a b : List FileInfo) :
    create_file_content_string (a ++ b) =
      create_file_content_string a ++ create_file_content_string b := by
  unfold create_file_content_string
  rw [List.foldl_append]
  exact fcs_foldl_acc b _

theorem concatList_append (a b : List String) :
    concatList (a ++ b) = concatList a ++ concatList b := by
  induction a with
  | nil => simp [concatList]
  | cons s ss ih => simp [concatList, ih, String.append_assoc]

mutual

theorem extract_node_acc (q : Query) (mfs : Nat) (n : Node) (files : List FileInfo) :
    extract_files_content q mfs n files = files ++ extract_files_content q mfs n [] := by
  cases n with
  | file nm size content path =>
      unfold extract_files_content
      split
      · simp
      · simp
  | dir nm size children fc dc path ic =>
      unfold extract_files_content
      exact extract_list_acc q mfs children files

theorem extract_list_acc (q : Query) (mfs : Nat) (cs : List Node) (files : List FileInfo) :
    extractChildren q mfs cs files = files ++ extractChildren q mfs cs [] := by
  cases cs with
  | nil => simp [extractChildren]
  | cons c cs2 =>
      unfold extractChildren
      rw [extract_node_acc q mfs c files]
      rw [extract_list_acc q mfs cs2 (files ++ extract_files_content q mfs c [])]
      rw [extract_list_acc q mfs cs2 (extract_files_content q mfs c [])]
      simp [List.append_assoc]

end

mutual

theorem fcs_extract_node (q : Query) (mfs : Nat) (n : Node) :
    create_file_content_string (extract_files_content q mfs n []) =
      concatList (((preorderFiles n).filter (keepFile mfs)).map (blockOf q)) := by
  cases n with
  | file nm size content path =>
      unfold extract_files_content preorderFiles
      by_cases h1 : content = nonTextSentinel
      · rw [if_neg (by simp [h1])]
        simp [create_file_content_string, keepFile, h1, concatList]
      · rw [if_pos (by simp [h1])]
        dsimp only
        by_cases h2 : size > mfs
        · rw [if_pos h2]
          have h2n : ¬ size ≤ mfs := by omega
          simp [create_file_content_string, keepFile, h2n, concatList]
        · rw [if_neg h2]
          have h2y : size ≤ mfs := by omega
          by_cases h3 : content = ""
          · simp [create_file_content_string, keepFile, h3, concatList]
          · simp [create_file_content_string, keepFile, h1, h2y, h3, concatList, blockOf,
              String.append_assoc]
  | dir nm size children fc dc path ic =>
      unfold extract_files_content preorderFiles
      exact fcs_extract_list q mfs children

theorem fcs_extract_list (q : Query) (mfs : Nat) (cs : List Node) :
    create_file_content_string (extractChildren q mfs cs []) =
      concatList (((preorderFilesList cs).filter (keepFile mfs)).map (blockOf q)) := by
  cases cs with
  | nil => rfl
  | cons c cs2 =>
      unfold extractChildren preorderFilesList
      rw [extract_list_acc q mfs cs2 (extract_files_content q mfs c [])]
      rw [fcs_append]
      rw [fcs_extract_node q mfs c, fcs_extract_list q mfs cs2]
      rw [List.filter_append, List.map_append, concatList_append]

end

/-- C9 counterexample: an empty text file (content `""`, size 0) is
neither binary-marked nor over the content-size ceiling, so the claim
requires a block for it in the content string; the renderer's falsiness
test `if not file["content"]` also skips empty contents, and the rendered
string is empty. -/
theorem C9_counterexample :
    (scanRoot emptyFS qE ["e"]).1 =
      some (Node.dir "e" 0 [Node.file "a.txt" 0 "" ["e", "a.txt"]] 1 0 ["e"] false) ∧
    ("" : String) ≠ nonTextSentinel ∧ (0 : Nat) ≤ qE.max_file_size ∧
    extract_files_content qE qE.max_file_size
        (Node.dir "e" 0 [Node.file "a.txt" 0 "" ["e", "a.txt"]] 1 0 ["e"] false) [] =
      [⟨["a.txt"], some "", 0⟩] ∧
    create_file_content_string [⟨["a.txt"], some "", 0⟩] = "" :=
  ⟨by rfl, by decide, by decide, by rfl, by rfl⟩

/-- C9 (amended): the rendered content string is exactly the concatenation
of one block (48-character `=` delimiter line, `File: <relative path>`
line, delimiter again, file text, blank-line separator) for every file
node in pre-order, skipping the binary-marked files, the files whose size
exceeds the content-size ceiling, *and the files whose content string is
empty* (Python falsiness); the skipped files contribute nothing. -/
theorem C9_amended_content_string (q : Query) (mfs : Nat) (n : Node) :
    create_file_content_string (extract_files_content q mfs n []) =
      concatList (((preorderFiles n).filter (keepFile mfs)).map (blockOf q)) :=
  fcs_extract_node q mfs n

/-- C10: `_ingest_directory` never raises its "No files found" ValueError
for an existing directory target: `_scan_directory` called at the root
with fresh state always returns the (truthy) directory node, so the
function returns normally; on a directory with no children the result is
the summary reporting 0 files analyzed, a tree diagram with no file
entries, and an empty content string. -/
theorem C10_no_files_found_never (fs : FS) (q : Query) (tok : String → Option Nat)
    (path : GPath) (ns : List String)
    (_hdir : fs (resolvePath fs path) = some (Entry.dir ns)) :
    (ingest_directory fs q tok path).isOk = true ∧
    ingest_directory zeroFS qZ (fun _ => none) ["z"] =
      Except.ok ("Repository: z\nFiles analyzed: 0\n", "Directory structure:\n└── z/\n", "") := by
  constructor
  · obtain ⟨n, hn⟩ := scan_directory_some fs q (MAX_DIRECTORY_DEPTH + 1) path 0 [] ⟨0, 0⟩
      (by simp [MAX_DIRECTORY_DEPTH]) (by simp [MAX_FILES]) (by simp [MAX_TOTAL_SIZE_BYTES])
      (by simp)
    unfold ingest_directory
    rw [show scanRoot fs q path =
      scan_directory fs q (MAX_DIRECTORY_DEPTH + 1 + 1) path 0 [] ⟨0, 0⟩ from rfl]
    rw [hn]
    rfl
  · rfl

/-- Witness for C10 at the concrete childless directory `zeroFS`. -/
theorem C10_no_files_found_never_witness :
    (ingest_directory zeroFS qZ (fun _ => none) ["z"]).isOk = true ∧
    ingest_directory zeroFS qZ (fun _ => none) ["z"] =
      Except.ok ("Repository: z\nFiles analyzed: 0\n", "Directory structure:\n└── z/\n", "") :=
  C10_no_files_found_never zeroFS qZ (fun _ => none) ["z"] [] (by rfl)

end Gitingest
